import Mathlib

/-!
Verification of the assisted-migration-agent runtime against its
specification.  The Go sources are shallowly embedded: each Go function
relevant to a claim becomes an executable Lean definition over explicit
state; SQL-backed stores become pure state machines over the single row
they manage; external effects (the vCenter client, the HTTP remote, the
SQL engine's possible failures) are supplied as explicit environment
values so that every branch of the Go code is represented.
-/

/-- Collector states, from internal/models (CollectorState constants). -/
inductive CollectorState
  | ready
  | connecting
  | connected
  | collecting
  | collected
  | error
  deriving DecidableEq

/-- Go error values that the embedded code distinguishes.  Sentinel errors
(ErrCollectionInProgress, ErrInvalidCredentials, ErrNotFound) are compared
with errors.Is, i.e. by identity; every other error is carried verbatim as
its message string. -/
inductive GoError
  | collectionInProgress
  | invalidCredentials
  | notFound
  | msg (s : String)
  deriving DecidableEq

/-- Error text of each Go error, as produced by the source's errors.New
calls (Error() method). -/
def GoError.text : GoError → String
  | .collectionInProgress => "collection already in progress"
  | .invalidCredentials => "invalid credentials"
  | .notFound => "not found"
  | .msg s => s

/-- Credentials record, from internal/models/credentials.go.  Timestamps
are modelled as abstract clock readings (Nat). -/
structure Credentials where
  url : String
  username : String
  password : String
  isDataSharingAllowed : Bool
  createdAt : Nat
  updatedAt : Nat
  deriving DecidableEq

/-- The credentials table holds at most one row (fixed primary key 1,
CHECK id = 1 in 001_initial.sql), so its state is an optional row. -/
abbrev CredentialsTable := Option Credentials

/-- CredentialsStore.Get: SELECT the single row WHERE id = 1; sql.ErrNoRows
becomes ErrNotFound, a present row is returned. -/
def CredentialsStore.Get (s : CredentialsTable) : Except GoError Credentials :=
  match s with
  | none => .error .notFound
  | some c => .ok c

/-- CredentialsStore.Save: the UPSERT keyed on id 1.  A fresh row takes
created_at and updated_at from the database clock now(); a conflicting row
keeps its created_at and overwrites the recorded fields and updated_at. -/
def CredentialsStore.Save (s : CredentialsTable) (c : Credentials) (now : Nat) :
    CredentialsTable :=
  match s with
  | none => some { c with createdAt := now, updatedAt := now }
  | some old => some { c with createdAt := old.createdAt, updatedAt := now }

/-- CredentialsStore.Delete: DELETE WHERE id = 1.  The statement succeeds
whether or not a row exists, so the error component is always none. -/
def CredentialsStore.Delete (_s : CredentialsTable) : CredentialsTable × Option GoError :=
  (none, none)

/-- C6: for every credentials record c, Save then Get with no intervening
Delete returns a row equal to c on url, username, password and
is_data_sharing_allowed; Save then Get after Delete yields ErrNotFound;
and Delete on an absent row returns no error. -/
theorem credentials_store_round_trip (s : CredentialsTable) (c : Credentials) (now : Nat) :
    (∃ c2, CredentialsStore.Get (CredentialsStore.Save s c now) = .ok c2 ∧
      c2.url = c.url ∧ c2.username = c.username ∧ c2.password = c.password ∧
      c2.isDataSharingAllowed = c.isDataSharingAllowed) ∧
    CredentialsStore.Get (CredentialsStore.Delete (CredentialsStore.Save s c now)).1 =
      .error GoError.notFound ∧
    (CredentialsStore.Delete (none : CredentialsTable)).2 = none := by
  refine ⟨?_, rfl, rfl⟩
  cases s with
  | none => exact ⟨_, rfl, rfl, rfl, rfl, rfl⟩
  | some old => exact ⟨_, rfl, rfl, rfl, rfl, rfl⟩

/-- Split a character list at every occurrence of the separator
(strings.Split for a one-character separator). -/
def splitOnChar (sep : Char) : List Char → List (List Char)
  | [] => [[]]
  | c :: cs =>
    if c = sep then [] :: splitOnChar sep cs
    else
      match splitOnChar sep cs with
      | [] => [[c]]
      | h :: t => (c :: h) :: t

/-- filepath.Base: last element of the path once trailing separators are
dropped; "." for the empty path, "/" when the path is only separators. -/
def filepathBase (p : String) : String :=
  if p = "" then "."
  else
    match ((splitOnChar '/' p.data).filter (fun s => s ≠ [])).getLast? with
    | some s => String.mk s
    | none => "/"

/-- Decimal value of a digit list (helper for goAtoi). -/
def digitsToNat (cs : List Char) : Nat :=
  cs.foldl (fun a c => 10 * a + (c.toNat - '0'.toNat)) 0

/-- strconv.Atoi: an optional sign followed by at least one digit and
nothing else; anything different is a parse error (none). -/
def goAtoi (s : String) : Option Int :=
  match s.data with
  | [] => none
  | '+' :: cs =>
    if cs ≠ [] ∧ cs.all Char.isDigit then some (Int.ofNat (digitsToNat cs)) else none
  | '-' :: cs =>
    if cs ≠ [] ∧ cs.all Char.isDigit then some (-(Int.ofNat (digitsToNat cs))) else none
  | cs =>
    if cs.all Char.isDigit then some (Int.ofNat (digitsToNat cs)) else none

/-- extractVersion from migrations.go: take the base name, split at the
first underscore, Atoi the first part; 0 on any parse failure. -/
def extractVersion (filename : String) : Int :=
  let base := filepathBase filename
  let first := String.mk ((splitOnChar '_' base.data).headD base.data)
  match goAtoi first with
  | none => 0
  | some v => v

/-- Insertion step of sort.Strings (lexicographic string order). -/
def insertSorted (x : String) : List String → List String
  | [] => [x]
  | y :: ys => if x ≤ y then x :: y :: ys else y :: insertSorted x ys

/-- sort.Strings: sorts the file names lexicographically. -/
def sortStrings : List String → List String
  | [] => []
  | x :: xs => insertSorted x (sortStrings xs)

/-- strings.HasSuffix: the pattern equals the last characters of s. -/
def strEndsWith (s pat : String) : Bool :=
  decide (pat.data.length ≤ s.data.length) &&
    (s.data.drop (s.data.length - pat.data.length) == pat.data)

/-- getMigrationFiles: walk the embedded FS, keep the .sql files, sort
the names with sort.Strings. -/
def getMigrationFiles (fsFiles : List String) : List String :=
  sortStrings (fsFiles.filter (fun p => strEndsWith p ".sql"))

/-- The repository embeds exactly one migration file (go:embed sql/*.sql
over internal/store/migrations/sql). -/
def embeddedMigrationFiles : List String := ["sql/001_initial.sql"]

/-- Loop of migrations.Run.  applied0 is the set of versions read from
schema_migrations before the loop (the map is not refreshed inside the
loop); tbl is the current content of schema_migrations; log records the
migrations applied by this run, in order.  A file with version 0 is
invalid and skipped; a version recorded before the run is skipped; an
unrecorded version already inserted by this very run would violate the
primary key, failing the run. -/
def Migrations.runFrom (applied0 : List Int) :
    List String → List Int → List (String × Int) →
      Except GoError (List Int × List (String × Int))
  | [], tbl, log => .ok (tbl, log)
  | f :: fs, tbl, log =>
    if extractVersion f = 0 then Migrations.runFrom applied0 fs tbl log
    else if extractVersion f ∈ applied0 then Migrations.runFrom applied0 fs tbl log
    else if extractVersion f ∈ tbl then
      .error (.msg ("migration " ++ f ++ " failed: constraint violation"))
    else Migrations.runFrom applied0 fs (tbl ++ [extractVersion f]) (log ++ [(f, extractVersion f)])

/-- migrations.Run: reads the applied versions, lists and sorts the
embedded files, then applies the pending ones in order.  Returns the new
schema_migrations content and the list of applied migrations. -/
def Migrations.Run (files : List String) (tbl : List Int) :
    Except GoError (List Int × List (String × Int)) :=
  Migrations.runFrom tbl (getMigrationFiles files) tbl []

/-- A successful run only ever appends to schema_migrations. -/
theorem Migrations.runFrom_mono (a0 : List Int) (fs : List String)
    (tbl : List Int) (log : List (String × Int)) (out : List Int × List (String × Int))
    (h : Migrations.runFrom a0 fs tbl log = .ok out) :
    ∀ v ∈ tbl, v ∈ out.1 := by
  induction fs generalizing tbl log with
  | nil =>
    unfold Migrations.runFrom at h
    cases h
    exact fun v hv => hv
  | cons f fs ih =>
    unfold Migrations.runFrom at h
    split at h
    · exact ih tbl log h
    · split at h
      · exact ih tbl log h
      · split at h
        · cases h
        · intro v hv
          exact ih (tbl ++ [extractVersion f]) (log ++ [(f, extractVersion f)]) h v
            (List.mem_append_left _ hv)

/-- After a successful run, every processed file is either invalid, was
recorded before the run, or is recorded in the resulting table. -/
theorem Migrations.runFrom_covers (a0 : List Int) (fs : List String)
    (tbl : List Int) (log : List (String × Int)) (out : List Int × List (String × Int))
    (h : Migrations.runFrom a0 fs tbl log = .ok out) :
    ∀ f ∈ fs, extractVersion f = 0 ∨ extractVersion f ∈ a0 ∨ extractVersion f ∈ out.1 := by
  induction fs generalizing tbl log with
  | nil => intro f hf; cases hf
  | cons g fs ih =>
    intro f hf
    unfold Migrations.runFrom at h
    rcases List.mem_cons.mp hf with hfg | hmem
    · subst hfg
      split at h
      · exact Or.inl (by assumption)
      · split at h
        · exact Or.inr (Or.inl (by assumption))
        · split at h
          · cases h
          · refine Or.inr (Or.inr ?_)
            exact Migrations.runFrom_mono a0 fs _ _ out h (extractVersion f)
              (List.mem_append_right _ (List.mem_singleton.mpr rfl))
    · split at h
      · exact ih tbl log h f hmem
      · split at h
        · exact ih tbl log h f hmem
        · split at h
          · cases h
          · exact ih _ _ h f hmem

/-- When every file is invalid or already recorded, the loop changes
nothing and applies nothing. -/
theorem Migrations.runFrom_noop (a0 : List Int) (fs : List String)
    (tbl : List Int) (log : List (String × Int))
    (h : ∀ f ∈ fs, extractVersion f = 0 ∨ extractVersion f ∈ a0) :
    Migrations.runFrom a0 fs tbl log = .ok (tbl, log) := by
  induction fs generalizing tbl log with
  | nil => rfl
  | cons f fs ih =>
    unfold Migrations.runFrom
    rcases h f (List.mem_cons_self f fs) with h0 | ha
    · rw [if_pos h0]
      exact ih tbl log (fun g hg => h g (List.mem_cons_of_mem f hg))
    · by_cases h0 : extractVersion f = 0
      · rw [if_pos h0]
        exact ih tbl log (fun g hg => h g (List.mem_cons_of_mem f hg))
      · rw [if_neg h0, if_pos ha]
        exact ih tbl log (fun g hg => h g (List.mem_cons_of_mem f hg))

/-- C5: on the repository's embedded migration set, Run applies exactly
the file whose version (1) is not yet recorded in schema_migrations —
trivially in ascending version order — and skips it when recorded; and
for any file set, a second run after a successful run is a no-op that
records nothing new. -/
theorem migrations_run_exact_and_idempotent :
    (∀ tbl : List Int,
       Migrations.Run embeddedMigrationFiles tbl =
         if (1 : Int) ∈ tbl then .ok (tbl, [])
         else .ok (tbl ++ [1], [("sql/001_initial.sql", 1)])) ∧
    (∀ files tbl out, Migrations.Run files tbl = .ok out →
       Migrations.Run files out.1 = .ok (out.1, [])) := by
  have hfiles : getMigrationFiles embeddedMigrationFiles = ["sql/001_initial.sql"] := by
    decide
  have hv : extractVersion "sql/001_initial.sql" = 1 := by decide
  constructor
  · intro tbl
    unfold Migrations.Run
    rw [hfiles]
    by_cases hmem : (1 : Int) ∈ tbl
    · simp [Migrations.runFrom, hv, hmem]
    · simp [Migrations.runFrom, hv, hmem]
  · intro files tbl out h
    unfold Migrations.Run at h ⊢
    have hmono := Migrations.runFrom_mono tbl (getMigrationFiles files) tbl [] out h
    have hcov := Migrations.runFrom_covers tbl (getMigrationFiles files) tbl [] out h
    apply Migrations.runFrom_noop
    intro f hf
    rcases hcov f hf with h0 | ha | ht
    · exact Or.inl h0
    · exact Or.inr (hmono _ ha)
    · exact Or.inr ht

/-- Witness for C5: applying the theorem at a concrete first run from an
empty schema_migrations, the second run leaves the table at exactly one
row and applies nothing. -/
theorem migrations_second_run_noop_witness :
    Migrations.Run embeddedMigrationFiles ([1] : List Int) = .ok ([1], []) := by
  have h1 : Migrations.Run embeddedMigrationFiles ([] : List Int) =
      .ok ([1], [("sql/001_initial.sql", 1)]) := by
    have h := migrations_run_exact_and_idempotent.1 []
    simpa using h
  have h2 := migrations_run_exact_and_idempotent.2 embeddedMigrationFiles []
    ([1], [("sql/001_initial.sql", 1)]) h1
  simpa using h2

/-- One scheduled task's handle: scheduler.AddWork returns a fresh
unresolved future; Future.Stop requests cancellation. -/
structure Future where
  resolved : Bool
  stopRequested : Bool
  deriving DecidableEq

/-- The mutable fields of CollectorService that its state machine touches
(scheduler, store handle and dataFolder are fixed references). -/
structure CollectorService where
  state : CollectorState
  lastError : Option GoError
  collectFuture : Option Future
  deriving DecidableEq

/-- The store's mutable state: the single credentials row. -/
structure StoreState where
  credentials : CredentialsTable
  deriving DecidableEq

/-- The guard c.collectFuture != nil && !c.collectFuture.IsResolved(). -/
def futureInProgress : Option Future → Bool
  | none => false
  | some f => !f.resolved

/-- setState: records the new state and clears lastError whenever the new
state is not Error. -/
def CollectorService.setState (c : CollectorService) (s : CollectorState) : CollectorService :=
  { c with
    state := s
    lastError := if s = CollectorState.error then c.lastError else none }

/-- setError: records the error and moves to the Error state. -/
def CollectorService.setError (c : CollectorService) (e : GoError) : CollectorService :=
  { c with state := CollectorState.error, lastError := some e }

/-- NewCollectorService starts in Ready with no error and no future. -/
def NewCollectorService : CollectorService :=
  { state := CollectorState.ready, lastError := none, collectFuture := none }

/-- startCollectionJob: re-reads the credentials from the store; a read
failure records the error, otherwise AddWork submits the collection task
and the fresh unresolved future is kept in collectFuture. -/
def CollectorService.startCollectionJob (c : CollectorService) (st : StoreState) :
    CollectorService :=
  match CredentialsStore.Get st.credentials with
  | .error e => c.setError e
  | .ok _ => { c with collectFuture := some { resolved := false, stopRequested := false } }

/-- Environment of one Start call: the outcome of the SQL Save, the
outcome of the synchronous credential verification, and the database
clock used for updated_at. -/
structure StartEnv where
  saveErr : Option GoError
  verifyErr : Option GoError
  now : Nat
  deriving DecidableEq

/-- Start: rejects when an unresolved future exists; otherwise saves the
credentials, moves to Connecting, verifies synchronously (recording a
failure via setError), and on success moves to Connected and submits the
collection job.  Returns the new collector, the new store and the error
returned to the caller. -/
def CollectorService.Start (c : CollectorService) (st : StoreState) (creds : Credentials)
    (env : StartEnv) : CollectorService × StoreState × Option GoError :=
  if futureInProgress c.collectFuture then (c, st, some GoError.collectionInProgress)
  else
    match env.saveErr with
    | some e => (c, st, some e)
    | none =>
      let st2 : StoreState := { credentials := CredentialsStore.Save st.credentials creds env.now }
      let c1 := c.setState CollectorState.connecting
      match env.verifyErr with
      | some e => (c1.setError e, st2, some e)
      | none =>
        let c2 := c1.setState CollectorState.connected
        (c2.startCollectionJob st2, st2, none)

/-- Result of one Stop call; cancelSignalled records whether
collectFuture.Stop() was invoked (future present and unresolved). -/
structure StopResult where
  svc : CollectorService
  store : StoreState
  err : Option GoError
  cancelSignalled : Bool
  deriving DecidableEq

/-- Stop: cancels a pending future if one exists, clears the handle and
returns to Ready; the store is never touched. -/
def CollectorService.Stop (c : CollectorService) (st : StoreState) : StopResult :=
  { svc := CollectorService.setState { c with collectFuture := none } CollectorState.ready,
    store := st,
    err := none,
    cancelSignalled := futureInProgress c.collectFuture }

/-- The status snapshot returned by GetStatus. -/
structure CollectorStatus where
  state : CollectorState
  error : String
  hasCredentials : Bool
  deriving DecidableEq

/-- GetStatus: snapshot of state and error text; HasCredentials is the
outcome of the store Get performed during the call, passed here as an
explicit argument because the SQL call can fail for reasons beyond the
table's content. -/
def CollectorService.GetStatus (c : CollectorService)
    (getResult : Except GoError Credentials) : CollectorStatus :=
  { state := c.state,
    error := match c.lastError with | some e => e.text | none => "",
    hasCredentials := match getResult with | .ok _ => true | .error _ => false }

/-- Whether pat is a leading segment of s (helper for containsSubstr). -/
def startsWithList : List Char → List Char → Bool
  | _, [] => true
  | [], _ :: _ => false
  | c :: cs, p :: ps => c = p && startsWithList cs ps

/-- Whether pat occurs contiguously in s (helper for containsSubstr). -/
def containsList (pat : List Char) : List Char → Bool
  | [] => pat.isEmpty
  | c :: cs => startsWithList (c :: cs) pat || containsList pat cs

/-- strings.Contains: pat occurs as a contiguous substring of s. -/
def containsSubstr (s pat : String) : Bool := containsList pat.data s.data

/-- Environment of verifyCredentials: the outcome of parseVCenterURL, of
vim25.NewClient, and of client.Login (none means success; a login failure
carries its error text). -/
structure VerifyEnv where
  parseErr : Option GoError
  clientErr : Option GoError
  loginErr : Option String
  deriving DecidableEq

/-- verifyCredentials: URL-parse and client-construction errors are
returned untouched; a login error whose text contains "Login failure", or
contains both "incorrect" and "password", is normalized to
ErrInvalidCredentials, any other login error is returned verbatim. -/
def CollectorService.verifyCredentials (env : VerifyEnv) : Option GoError :=
  match env.parseErr with
  | some e => some e
  | none =>
  match env.clientErr with
  | some e => some e
  | none =>
  match env.loginErr with
  | none => none
  | some m =>
    if containsSubstr m "Login failure" ||
        (containsSubstr m "incorrect" && containsSubstr m "password") then
      some GoError.invalidCredentials
    else some (GoError.msg m)

/-- HTTP status code chosen by the StartCollector handler from the error
returned by CollectorService.Start (202 on success, 409 for
ErrCollectionInProgress, 401 for ErrInvalidCredentials, 500 otherwise). -/
def startCollectorStatusCode : Option GoError → Nat
  | none => 202
  | some GoError.collectionInProgress => 409
  | some GoError.invalidCredentials => 401
  | some _ => 500

/-- C1: with an unresolved future Start returns ErrCollectionInProgress
and leaves collector and store untouched; otherwise, when the save and
the synchronous verification succeed, the credentials are saved, the
collector ends Connected with the error cleared, and a fresh unresolved
collection future has been submitted. -/
theorem start_rejects_or_saves_verifies_submits (c : CollectorService) (st : StoreState)
    (creds : Credentials) (env : StartEnv) :
    (futureInProgress c.collectFuture = true →
       CollectorService.Start c st creds env = (c, st, some GoError.collectionInProgress)) ∧
    (futureInProgress c.collectFuture = false → env.saveErr = none → env.verifyErr = none →
       CollectorService.Start c st creds env =
         ({ state := CollectorState.connected, lastError := none,
            collectFuture := some { resolved := false, stopRequested := false } },
          { credentials := CredentialsStore.Save st.credentials creds env.now },
          none)) := by
  constructor
  · intro h
    unfold CollectorService.Start
    rw [h]
    rfl
  · intro h hs hv
    unfold CollectorService.Start
    rw [h, hs, hv]
    show (CollectorService.startCollectionJob _ _, _, _) = _
    unfold CollectorService.startCollectionJob
    cases hc : st.credentials with
    | none =>
      simp [CredentialsStore.Save, CredentialsStore.Get, CollectorService.setState]
    | some old =>
      simp [CredentialsStore.Save, CredentialsStore.Get, CollectorService.setState]

/-- Witness for C1: both branches exercised at concrete inputs. -/
theorem start_rejects_or_saves_verifies_submits_witness :
    (CollectorService.Start
        { state := CollectorState.collecting, lastError := none,
          collectFuture := some { resolved := false, stopRequested := false } }
        { credentials := none }
        { url := "https://v.example/sdk", username := "u", password := "p",
          isDataSharingAllowed := false, createdAt := 0, updatedAt := 0 }
        { saveErr := none, verifyErr := none, now := 7 } =
      ({ state := CollectorState.collecting, lastError := none,
         collectFuture := some { resolved := false, stopRequested := false } },
       { credentials := none }, some GoError.collectionInProgress)) ∧
    (CollectorService.Start NewCollectorService { credentials := none }
        { url := "https://v.example/sdk", username := "u", password := "p",
          isDataSharingAllowed := false, createdAt := 0, updatedAt := 0 }
        { saveErr := none, verifyErr := none, now := 7 } =
      ({ state := CollectorState.connected, lastError := none,
         collectFuture := some { resolved := false, stopRequested := false } },
       { credentials := some
           { url := "https://v.example/sdk", username := "u", password := "p",
             isDataSharingAllowed := false, createdAt := 7, updatedAt := 7 } },
       none)) := by
  constructor
  · exact (start_rejects_or_saves_verifies_submits _ _ _ _).1 rfl
  · exact (start_rejects_or_saves_verifies_submits _ _ _ _).2 rfl rfl rfl

/-- C8: from any collector state, Stop returns with the collector in
Ready (error cleared, future handle cleared), the store exactly as it was
(credentials neither deleted nor modified), no error, and the pending
future cancelled exactly when one was unresolved. -/
theorem stop_ready_and_credentials_frame (c : CollectorService) (st : StoreState) :
    (CollectorService.Stop c st).svc.state = CollectorState.ready ∧
    (CollectorService.Stop c st).svc.lastError = none ∧
    (CollectorService.Stop c st).svc.collectFuture = none ∧
    (CollectorService.Stop c st).store = st ∧
    (CollectorService.Stop c st).err = none ∧
    (CollectorService.Stop c st).cancelSignalled = futureInProgress c.collectFuture :=
  ⟨rfl, rfl, rfl, rfl, rfl, rfl⟩

/-- Every setState call into a non-Error state clears lastError. -/
theorem setState_clears_error (c : CollectorService) (s : CollectorState)
    (h : s ≠ CollectorState.error) :
    (CollectorService.setState c s).lastError = none := by
  unfold CollectorService.setState
  simp [h]

/-- setState always re-establishes the error invariant. -/
theorem errorInvariant_setState (c : CollectorService) (s : CollectorState) :
    (CollectorService.setState c s).state ≠ CollectorState.error →
      (CollectorService.setState c s).lastError = none := by
  intro h
  apply setState_clears_error
  intro hs
  exact h (by simpa [CollectorService.setState] using hs)

/-- setError moves to the Error state, so the invariant holds vacuously. -/
theorem errorInvariant_setError (c : CollectorService) (e : GoError) :
    (CollectorService.setError c e).state ≠ CollectorState.error →
      (CollectorService.setError c e).lastError = none := by
  intro habs
  exact absurd rfl habs

/-- The operations serialized by the collector's mutex: the public calls
and the state transitions performed inside the scheduled collection job
(Collecting on entry, Error on failure, Collected then Ready on
success). -/
inductive CollectorOp
  | start (creds : Credentials) (env : StartEnv)
  | stop
  | jobCollecting
  | jobFail (e : GoError)
  | jobCollected
  | jobReady

/-- Effect of one operation on the collector fields. -/
def CollectorService.applyOp (c : CollectorService) (st : StoreState) :
    CollectorOp → CollectorService
  | .start creds env => (CollectorService.Start c st creds env).1
  | .stop => (CollectorService.Stop c st).svc
  | .jobCollecting => c.setState CollectorState.collecting
  | .jobFail e => c.setError e
  | .jobCollected => c.setState CollectorState.collected
  | .jobReady => c.setState CollectorState.ready

/-- The invariant of C7: a recorded error exists only in state Error. -/
def errorInvariant (c : CollectorService) : Prop :=
  c.state ≠ CollectorState.error → c.lastError = none

/-- C7: the error invariant holds initially and is preserved by every
operation of the collector state machine; every transition into a
non-Error state clears lastError; and under the invariant GetStatus
reports an empty Error field whenever the state is not Error. -/
theorem collector_error_only_in_error_state (c : CollectorService) (st : StoreState)
    (op : CollectorOp) (r : Except GoError Credentials) (hinv : errorInvariant c) :
    errorInvariant (CollectorService.applyOp c st op) ∧
    errorInvariant NewCollectorService ∧
    (∀ c2 s2, s2 ≠ CollectorState.error →
       (CollectorService.setState c2 s2).lastError = none) ∧
    (c.state ≠ CollectorState.error → (CollectorService.GetStatus c r).error = "") := by
  refine ⟨?_, fun _ => rfl, fun c2 s2 h => setState_clears_error c2 s2 h, ?_⟩
  · cases op with
    | start creds env =>
      show errorInvariant (CollectorService.Start c st creds env).1
      unfold CollectorService.Start
      by_cases hf : futureInProgress c.collectFuture
      · simpa [hf] using hinv
      · simp only [hf, Bool.false_eq_true, if_false]
        cases hs : env.saveErr with
        | some e => exact hinv
        | none =>
          cases hv : env.verifyErr with
          | some e => exact errorInvariant_setError _ _
          | none =>
            show errorInvariant (CollectorService.startCollectionJob _ _)
            unfold CollectorService.startCollectionJob
            cases hc : CredentialsStore.Get (CredentialsStore.Save st.credentials creds env.now) with
            | error e => exact errorInvariant_setError _ _
            | ok v =>
              intro _
              rfl
    | stop =>
      exact errorInvariant_setState _ _
    | jobCollecting =>
      exact errorInvariant_setState _ _
    | jobFail e =>
      exact errorInvariant_setError _ _
    | jobCollected =>
      exact errorInvariant_setState _ _
    | jobReady =>
      exact errorInvariant_setState _ _
  · intro h
    unfold CollectorService.GetStatus
    rw [hinv h]

/-- Witness for C7: the theorem applied at the initial collector, a
concrete failing job step, and a concrete store read failure. -/
theorem collector_error_only_in_error_state_witness :
    errorInvariant
      (CollectorService.applyOp NewCollectorService { credentials := none }
        (CollectorOp.jobFail (GoError.msg "boom"))) ∧
    (NewCollectorService.state ≠ CollectorState.error →
      (CollectorService.GetStatus NewCollectorService
        (.error (GoError.msg "io failure"))).error = "") := by
  have h := collector_error_only_in_error_state NewCollectorService { credentials := none }
    (CollectorOp.jobFail (GoError.msg "boom")) (.error (GoError.msg "io failure"))
    (fun _ => rfl)
  exact ⟨h.1, h.2.2.2⟩

/-- C10: the HasCredentials field computed by GetStatus is true exactly
when the store Get performed during the call returned no error; every
store failure, ErrNotFound or any other error, yields
HasCredentials = false, and GetStatus still returns a plain status (its
type carries no error channel to the caller). -/
theorem getstatus_hascredentials_iff_get_ok (c : CollectorService)
    (r : Except GoError Credentials) :
    ((CollectorService.GetStatus c r).hasCredentials = true ↔ ∃ v, r = .ok v) ∧
    (∀ e, (CollectorService.GetStatus c (.error e)).hasCredentials = false) := by
  constructor
  · cases r with
    | ok v => simp [CollectorService.GetStatus]
    | error e => simp [CollectorService.GetStatus]
  · intro e
    rfl

/-- The predicate of the login-error normalization in verifyCredentials. -/
def loginErrMatches (m : String) : Bool :=
  containsSubstr m "Login failure" ||
    (containsSubstr m "incorrect" && containsSubstr m "password")

/-- C3: a login error is normalized to ErrInvalidCredentials exactly when
its text contains "Login failure" or both "incorrect" and "password";
a non-matching login error, a URL parse error and a client construction
error are surfaced verbatim; and the StartCollector handler maps
ErrInvalidCredentials to HTTP 401. -/
theorem verify_normalizes_login_errors (m : String) (e : GoError) :
    (CollectorService.verifyCredentials { parseErr := none, clientErr := none, loginErr := some m } =
        some GoError.invalidCredentials ↔ loginErrMatches m = true) ∧
    (loginErrMatches m = false →
      CollectorService.verifyCredentials { parseErr := none, clientErr := none, loginErr := some m } =
        some (GoError.msg m)) ∧
    (∀ ce le, CollectorService.verifyCredentials { parseErr := some e, clientErr := ce, loginErr := le } =
        some e) ∧
    (∀ le, CollectorService.verifyCredentials { parseErr := none, clientErr := some e, loginErr := le } =
        some e) ∧
    startCollectorStatusCode (some GoError.invalidCredentials) = 401 := by
  refine ⟨?_, ?_, fun ce le => rfl, fun le => rfl, rfl⟩
  · unfold CollectorService.verifyCredentials loginErrMatches
    cases hm : (containsSubstr m "Login failure" ||
        (containsSubstr m "incorrect" && containsSubstr m "password")) with
    | true => simp [hm]
    | false => simp [hm]
  · intro hm
    unfold CollectorService.verifyCredentials
    have hm2 : (containsSubstr m "Login failure" ||
        (containsSubstr m "incorrect" && containsSubstr m "password")) = false := hm
    simp [hm2]

/-- Witness for C3: the normalization decided on the error text of
scenario 2 of the specification, and on a non-matching error text. -/
theorem verify_normalizes_login_errors_witness :
    CollectorService.verifyCredentials
      { parseErr := none, clientErr := none,
        loginErr := some "ServerFaultCode: Cannot complete login due to an incorrect user name or password" } =
      some GoError.invalidCredentials ∧
    CollectorService.verifyCredentials
      { parseErr := none, clientErr := none, loginErr := some "connection refused" } =
      some (GoError.msg "connection refused") := by
  constructor
  · exact (verify_normalizes_login_errors
      "ServerFaultCode: Cannot complete login due to an incorrect user name or password"
      GoError.notFound).1.mpr (by decide)
  · exact (verify_normalizes_login_errors "connection refused" GoError.notFound).2.1 (by decide)

/-- Console states, from internal/models (ConsoleStatusType constants). -/
inductive ConsoleStatusType
  | disconnected
  | connecting
  | connected
  | error
  deriving DecidableEq

/-- ConsoleStatus from internal/models: observed state, operator target,
and the recorded error (lastErrorText). -/
structure ConsoleStatus where
  current : ConsoleStatusType
  target : ConsoleStatusType
  error : Option GoError
  deriving DecidableEq

/-- Agent modes accepted by SetMode. -/
inductive AgentMode
  | connected
  | disconnected
  deriving DecidableEq

/-- The Console service state: its status, the number of live run-loop
goroutines (each go c.run() adds one, a delivered close signal removes
one), and the store it holds by reference. -/
structure Console where
  status : ConsoleStatus
  runLoops : Nat
  store : StoreState
  deriving DecidableEq

/-- NewConsoleService: builds the service with current and target both
Disconnected and does not start a run loop.  It receives the store but
reads nothing from it during construction. -/
def NewConsoleService (st : StoreState) : Console :=
  { status := { current := ConsoleStatusType.disconnected,
                target := ConsoleStatusType.disconnected, error := none },
    runLoops := 0, store := st }

/-- NewConnectedConsoleService: target Connected, one run loop started
immediately; it too reads nothing from the store during construction. -/
def NewConnectedConsoleService (st : StoreState) : Console :=
  { status := { current := ConsoleStatusType.disconnected,
                target := ConsoleStatusType.connected, error := none },
    runLoops := 1, store := st }

/-- Console.IsDataSharingAllowed: reads the credentials row and returns
its flag; store errors (including ErrNotFound) are surfaced. -/
def Console.IsDataSharingAllowed (c : Console) : Except GoError Bool :=
  match CredentialsStore.Get c.store.credentials with
  | .error e => .error e
  | .ok creds => .ok creds.isDataSharingAllowed

/-- Console.SetMode: for connected, set the target and unconditionally
start another run loop (go c.run() has no not-already-running guard); for
disconnected, deliver a close signal only when the target was Connected,
then set the target. -/
def Console.SetMode (c : Console) (m : AgentMode) : Console :=
  match m with
  | AgentMode.connected =>
    { c with
      status := { c.status with target := ConsoleStatusType.connected }
      runLoops := c.runLoops + 1 }
  | AgentMode.disconnected =>
    if c.status.target = ConsoleStatusType.connected then
      { c with
        status := { c.status with target := ConsoleStatusType.disconnected }
        runLoops := c.runLoops - 1 }
    else { c with status := { c.status with target := ConsoleStatusType.disconnected } }

/-- One pass of the Console.run loop after the ticker fires: poll the
in-flight status future; while it is unresolved nothing is sent; once it
resolves — with any result, HTTP 401/410 errors included — the loop only
logs the error and dispatches one more status request.  The console state
(in particular status.error) is never written.  poll is none while the
future is unresolved, some re carries the resolved error value.  Returns
the console and the number of new outbound requests dispatched. -/
def Console.runTick (c : Console) (poll : Option (Option GoError)) : Console × Nat :=
  match poll with
  | none => (c, 0)
  | some _ => (c, 1)

/-- The error value carried by a terminal HTTP 401 response from the
remote console's status endpoint. -/
def terminalErr : GoError := GoError.msg "failed to update agent status: 401"

/-- Credentials row with data sharing allowed, used as the failing input
of C4. -/
def sharingCreds : Credentials :=
  { url := "https://vcenter.example.com", username := "admin", password := "secret",
    isDataSharingAllowed := true, createdAt := 0, updatedAt := 0 }

/-- C2 (code bug evidence): a run loop in connected mode whose status
future resolved with the terminal 401 error dispatches one further
outbound request on the very next tick and records nothing in
status.error — the loop never inspects the error class, against the
specification and the repository's own console tests. -/
theorem run_loop_continues_after_terminal_error :
    (Console.runTick ((NewConsoleService { credentials := none }).SetMode AgentMode.connected)
        (some (some terminalErr))).2 = 1 ∧
    (Console.runTick ((NewConsoleService { credentials := none }).SetMode AgentMode.connected)
        (some (some terminalErr))).1.status.error = none ∧
    (Console.runTick ((NewConsoleService { credentials := none }).SetMode AgentMode.connected)
        (some (some terminalErr))).1.runLoops = 1 :=
  ⟨rfl, rfl, rfl⟩

/-- C4 (code bug evidence): with a stored credentials row whose
is_data_sharing_allowed is true, NewConsoleService still produces target
Disconnected and zero run loops — the constructor never reads the row,
against the specification and the repository's own console tests. -/
theorem console_ctor_ignores_data_sharing :
    CredentialsStore.Get (some sharingCreds) = .ok sharingCreds ∧
    sharingCreds.isDataSharingAllowed = true ∧
    (NewConsoleService { credentials := some sharingCreds }).status.target =
      ConsoleStatusType.disconnected ∧
    (NewConsoleService { credentials := some sharingCreds }).runLoops = 0 ∧
    (NewConsoleService { credentials := some sharingCreds }).IsDataSharingAllowed = .ok true :=
  ⟨rfl, rfl, rfl, rfl, rfl⟩

/-- C9 counterexample: two successive SetMode(connected) calls do not
equal a single one — the second call spawns a second run loop. -/
theorem setmode_connected_not_idempotent :
    ((NewConsoleService { credentials := none }).SetMode AgentMode.connected).SetMode
        AgentMode.connected ≠
      (NewConsoleService { credentials := none }).SetMode AgentMode.connected := by
  decide

/-- C9 amended: SetMode(disconnected) on a reporter already targeting
Disconnected is a no-op, and SetMode(connected) on a reporter already
targeting Connected leaves the status unchanged but starts one additional
run loop, so only the disconnected direction is idempotent. -/
theorem setmode_idempotent_only_when_disconnected (c : Console)
    (hd : c.status.target = ConsoleStatusType.disconnected) :
    c.SetMode AgentMode.disconnected = c ∧
    (∀ c2 : Console, c2.status.target = ConsoleStatusType.connected →
       c2.SetMode AgentMode.connected = { c2 with runLoops := c2.runLoops + 1 }) := by
  constructor
  · obtain ⟨⟨cur, tgt, err⟩, loops, store⟩ := c
    simp only at hd
    subst hd
    rfl
  · intro c2 hc
    obtain ⟨⟨cur, tgt, err⟩, loops, store⟩ := c2
    simp only at hc
    subst hc
    rfl

/-- Witness for C9's amended statement at concrete consoles. -/
theorem setmode_idempotent_only_when_disconnected_witness :
    (NewConsoleService { credentials := none }).SetMode AgentMode.disconnected =
      NewConsoleService { credentials := none } ∧
    (NewConnectedConsoleService { credentials := none }).SetMode AgentMode.connected =
      { NewConnectedConsoleService { credentials := none } with runLoops := 2 } := by
  have h := setmode_idempotent_only_when_disconnected
    (NewConsoleService { credentials := none }) rfl
  exact ⟨h.1, h.2 (NewConnectedConsoleService { credentials := none }) rfl⟩
